import Mathlib

/-!
Shallow embedding of the open-tacos helper layer:
 - the presentational utilities (percent/color aggregation, name sanitizer)
   from the unnamed utility module, and
 - the Sirv media client (token manager and media operations)
   from src/js/sirv/SirvClient.ts.

JavaScript numbers are modelled by `JSNumber`: exact rationals plus the
special values NaN and the two infinities, with division and
multiplication following IEEE-754 special-value rules (0/0 = NaN,
c/0 = ±Inf for c ≠ 0).  Finite arithmetic is modelled exactly (no
rounding).  JavaScript objects used as string-keyed maps are modelled as
association lists in insertion order.
-/

/-- JavaScript number: an exact rational, NaN, or a signed infinity. -/
inductive JSNumber where
  | num (q : ℚ)
  | nan
  | posInf
  | negInf
deriving DecidableEq, Repr

/-- JavaScript division, with the IEEE special-value rules used by
`count / totalClimbs`: division by zero gives NaN for a zero numerator
and a signed infinity otherwise. -/
def jsDiv : JSNumber → JSNumber → JSNumber
  | JSNumber.num a, JSNumber.num b =>
    if b = 0 then
      (if a = 0 then JSNumber.nan
       else if 0 < a then JSNumber.posInf else JSNumber.negInf)
    else JSNumber.num (a / b)
  | JSNumber.nan, _ => JSNumber.nan
  | _, JSNumber.nan => JSNumber.nan
  | JSNumber.posInf, JSNumber.posInf => JSNumber.nan
  | JSNumber.posInf, JSNumber.negInf => JSNumber.nan
  | JSNumber.negInf, JSNumber.posInf => JSNumber.nan
  | JSNumber.negInf, JSNumber.negInf => JSNumber.nan
  | JSNumber.posInf, JSNumber.num b =>
    if 0 ≤ b then JSNumber.posInf else JSNumber.negInf
  | JSNumber.negInf, JSNumber.num b =>
    if 0 ≤ b then JSNumber.negInf else JSNumber.posInf
  | JSNumber.num _, JSNumber.posInf => JSNumber.num 0
  | JSNumber.num _, JSNumber.negInf => JSNumber.num 0

/-- JavaScript multiplication on the modelled number type. -/
def jsMul : JSNumber → JSNumber → JSNumber
  | JSNumber.num a, JSNumber.num b => JSNumber.num (a * b)
  | JSNumber.nan, _ => JSNumber.nan
  | _, JSNumber.nan => JSNumber.nan
  | JSNumber.posInf, JSNumber.posInf => JSNumber.posInf
  | JSNumber.posInf, JSNumber.negInf => JSNumber.negInf
  | JSNumber.negInf, JSNumber.posInf => JSNumber.negInf
  | JSNumber.negInf, JSNumber.negInf => JSNumber.posInf
  | JSNumber.posInf, JSNumber.num b =>
    if b = 0 then JSNumber.nan
    else if 0 < b then JSNumber.posInf else JSNumber.negInf
  | JSNumber.negInf, JSNumber.num b =>
    if b = 0 then JSNumber.nan
    else if 0 < b then JSNumber.negInf else JSNumber.posInf
  | JSNumber.num a, JSNumber.posInf =>
    if a = 0 then JSNumber.nan
    else if 0 < a then JSNumber.posInf else JSNumber.negInf
  | JSNumber.num a, JSNumber.negInf =>
    if a = 0 then JSNumber.nan
    else if 0 < a then JSNumber.negInf else JSNumber.posInf

/-- JavaScript addition on the modelled number type. -/
def jsAdd : JSNumber → JSNumber → JSNumber
  | JSNumber.num a, JSNumber.num b => JSNumber.num (a + b)
  | JSNumber.nan, _ => JSNumber.nan
  | _, JSNumber.nan => JSNumber.nan
  | JSNumber.posInf, JSNumber.negInf => JSNumber.nan
  | JSNumber.negInf, JSNumber.posInf => JSNumber.nan
  | JSNumber.posInf, _ => JSNumber.posInf
  | JSNumber.negInf, _ => JSNumber.negInf
  | JSNumber.num _, JSNumber.posInf => JSNumber.posInf
  | JSNumber.num _, JSNumber.negInf => JSNumber.negInf

/-- Sum of a list of JavaScript numbers (left fold from 0). -/
def jsSum (l : List JSNumber) : JSNumber := l.foldl jsAdd (JSNumber.num 0)

/-- A climb's `type` field: a JavaScript object mapping discipline names to
booleans, modelled as an association list in property insertion order
(`Object.entries` order). -/
abbrev ClimbType := List (String × Bool)

/-- One step of the accumulation in `computeClimbingPercentsAndColors`:
`acc[key] = acc[key] !== undefined ? acc[key] + 1 : 1`, where adding a new
key appends it in insertion order. -/
def bump (acc : List (String × Nat)) (key : String) : List (String × Nat) :=
  if acc.any (fun p => p.1 == key) then
    acc.map (fun p => if p.1 == key then (p.1, p.2 + 1) else p)
  else acc ++ [(key, 1)]

/-- The inner `Object.entries(type).reduce` of
`computeClimbingPercentsAndColors`: fold the entries of one climb's type
record into the running count map, skipping `false` flags. -/
def addClimb (acc : List (String × Nat)) (climb : ClimbType) : List (String × Nat) :=
  climb.foldl (fun a kv => if kv.2 then bump a kv.1 else a) acc

/-- The `typeToCount` map accumulated over all climbs. -/
def typeToCountOf (climbs : List ClimbType) : List (String × Nat) :=
  climbs.foldl addClimb []

/-- Result record of `computeClimbingPercentsAndColors`. -/
structure PercentAndColor where
  percents : List JSNumber
  colors : List (Option String)
deriving DecidableEq, Repr

/-- `computeClimbingPercentsAndColors` from the utility module: count true
discipline flags per category across all climbs, divide each count by the
grand total (times 100), and pair each category with its configured color.
The color table `ClimbTypeToColor` is imported from a constants module
that is not part of this repository snapshot, so it is passed as the
`climbTypeToColor` parameter (a JavaScript object lookup, possibly
undefined, hence `Option String`). -/
def computeClimbingPercentsAndColors (climbTypeToColor : String → Option String)
    (climbs : List ClimbType) : PercentAndColor :=
  let typeToCount := typeToCountOf climbs
  let counts : List Nat := typeToCount.map (fun p => p.2)
  let totalClimbs : Nat := counts.foldl (fun a c => a + c) 0
  let percents := counts.map (fun (count : Nat) =>
    jsMul (jsDiv (JSNumber.num count) (JSNumber.num totalClimbs)) (JSNumber.num 100))
  let colors := typeToCount.map (fun p => climbTypeToColor p.1)
  ⟨percents, colors⟩

/-! ## The `sanitizeName` regular expression

`sanitizeName` is `s.replace(re, '')` with the non-global regular
expression `/^(\(.{1,3}\) *)|((\d?[1-9]|[1-9]0)[-:])|[a-zA-Z]{1,2}\./`.
The `^` anchor belongs to the first alternative only.  We model the
backtracking matcher directly: at each position, alternatives are tried
in order (the parenthesized alternative only at position 0 because of the
anchor), the leftmost position with a match wins, and the single match is
deleted. -/

/-- The character class of `.` in a JavaScript regex (no `s` flag): any
character except the four line terminators. -/
def dotChar (c : Char) : Bool :=
  c ≠ '\n' && c ≠ '\r' && c ≠ Char.ofNat 0x2028 && c ≠ Char.ofNat 0x2029

/-- Number of leading spaces, for the greedy trailing ` *`. -/
def countSpaces : List Char → Nat
  | ' ' :: rest => countSpaces rest + 1
  | _ => 0

/-- Try `.{k}\) *` against the characters after the `(`: exactly `k`
dot-class characters, a `)`, then greedily spaces; returns the length
consumed. -/
def parenTailK (rest : List Char) (k : Nat) : Option Nat :=
  let pre := rest.take k
  if pre.length = k && pre.all dotChar then
    match rest.drop k with
    | ')' :: r => some (k + 1 + countSpaces r)
    | _ => none
  else none

/-- First alternative `\(.{1,3}\) *` (the greedy `.{1,3}` backtracks from
3 characters down to 1). -/
def matchAlt1 : List Char → Option Nat
  | '(' :: rest =>
    (parenTailK rest 3 <|> parenTailK rest 2 <|> parenTailK rest 1).map (fun n => n + 1)
  | _ => none

def isDigitCh (c : Char) : Bool := '0' ≤ c && c ≤ '9'

def isDigit19 (c : Char) : Bool := '1' ≤ c && c ≤ '9'

def isAlphaCh (c : Char) : Bool := ('a' ≤ c && c ≤ 'z') || ('A' ≤ c && c ≤ 'Z')

def isDashColon (c : Char) : Bool := c == '-' || c == ':'

/-- Second alternative `(\d?[1-9]|[1-9]0)[-:]`: the greedy `\d?` tries the
two-digit reading first, then the one-digit reading, then the `[1-9]0`
alternative. -/
def matchAlt2 : List Char → Option Nat
  | c0 :: c1 :: rest =>
    if isDigitCh c0 && isDigit19 c1 &&
        (match rest with | c2 :: _ => isDashColon c2 | [] => false) then some 3
    else if isDigit19 c0 && isDashColon c1 then some 2
    else if isDigit19 c0 && c1 == '0' &&
        (match rest with | c2 :: _ => isDashColon c2 | [] => false) then some 3
    else none
  | _ => none

/-- Third alternative `[a-zA-Z]{1,2}\.` (greedy: two letters before the
dot if possible, else one). -/
def matchAlt3 : List Char → Option Nat
  | a :: b :: rest =>
    if isAlphaCh a && isAlphaCh b &&
        (match rest with | c :: _ => c == '.' | [] => false) then some 3
    else if isAlphaCh a && b == '.' then some 2
    else none
  | _ => none

/-- Match attempt at one position: alternatives in source order, the
anchored first alternative participating only at the start of the
string. -/
def matchAt (first : Bool) (cs : List Char) : Option Nat :=
  (if first then matchAlt1 cs else none) <|> matchAlt2 cs <|> matchAlt3 cs

/-- Non-global `String.replace` with the sanitizer regex: scan left to
right, delete the first match (if any), keep the rest unchanged. -/
def sanitizeCore (first : Bool) : List Char → List Char
  | [] => []
  | c :: rest =>
    match matchAt first (c :: rest) with
    | some len => (c :: rest).drop len
    | none => c :: sanitizeCore false rest

/-- `sanitizeName` from the utility module. -/
def sanitizeName (s : String) : String := String.mk (sanitizeCore true s.data)

/-! ## SHA-1 and UUID v5

`SirvClient.ts` derives `mediaId` with `uuidv5(mediaUrl, uuidv5.URL)`
from the `uuid` package: the version-5 (namespace + SHA-1) UUID of the
URL string under the standard URL namespace.  We embed the full SHA-1
and v5 construction over byte lists (bytes as `Nat < 256`, 32-bit words
as `Nat` reduced mod `2^32`). -/

/-- 32-bit left rotation. -/
def rotl32 (n x : Nat) : Nat := ((x <<< n) ||| (x >>> (32 - n))) % (2 ^ 32)

/-- 32-bit complement. -/
def not32 (x : Nat) : Nat := x ^^^ 0xffffffff

/-- `k`-byte big-endian encoding of `n`. -/
def beBytes (k : Nat) (n : Nat) : List Nat :=
  (List.range k).map (fun i => (n >>> ((k - 1 - i) * 8)) % 256)

/-- SHA-1 padding: append `0x80`, zero bytes to 56 mod 64, then the
64-bit big-endian bit length. -/
def sha1Pad (msg : List Nat) : List Nat :=
  let z := (119 - msg.length % 64) % 64
  msg ++ [0x80] ++ List.replicate z 0 ++ beBytes 8 (msg.length * 8)

/-- Group bytes into big-endian 32-bit words. -/
def bytesToWords : List Nat → List Nat
  | a :: b :: c :: d :: rest =>
    (a * 2 ^ 24 + b * 2 ^ 16 + c * 2 ^ 8 + d) :: bytesToWords rest
  | _ => []

/-- Extend the 16 chunk words to the 80-word message schedule. -/
def sha1Schedule (ws : List Nat) : List Nat :=
  (List.range 64).foldl
    (fun acc _ =>
      let n := acc.length
      acc ++ [rotl32 1 (acc.getD (n - 3) 0 ^^^ acc.getD (n - 8) 0 ^^^
        acc.getD (n - 14) 0 ^^^ acc.getD (n - 16) 0)])
    ws

/-- Round function of SHA-1. -/
def sha1F (t b c d : Nat) : Nat :=
  if t < 20 then (b &&& c) ||| (not32 b &&& d)
  else if t < 40 then b ^^^ c ^^^ d
  else if t < 60 then (b &&& c) ||| (b &&& d) ||| (c &&& d)
  else b ^^^ c ^^^ d

/-- Round constants of SHA-1. -/
def sha1K (t : Nat) : Nat :=
  if t < 20 then 0x5A827999
  else if t < 40 then 0x6ED9EBA1
  else if t < 60 then 0x8F1BBCDC
  else 0xCA62C1D6

/-- Running state of SHA-1: the five 32-bit registers. -/
structure Sha1State where
  h0 : Nat
  h1 : Nat
  h2 : Nat
  h3 : Nat
  h4 : Nat
deriving DecidableEq, Repr

/-- Compress one 64-byte chunk into the state. -/
def sha1Chunk (st : Sha1State) (chunk : List Nat) : Sha1State :=
  let ws := sha1Schedule (bytesToWords chunk)
  let r := (List.range 80).foldl
    (fun (s : Sha1State) t =>
      let temp := (rotl32 5 s.h0 + sha1F t s.h1 s.h2 s.h3 + s.h4 + sha1K t +
        ws.getD t 0) % (2 ^ 32)
      ⟨temp, s.h0, rotl32 30 s.h1, s.h2, s.h3⟩)
    st
  ⟨(st.h0 + r.h0) % (2 ^ 32), (st.h1 + r.h1) % (2 ^ 32), (st.h2 + r.h2) % (2 ^ 32),
    (st.h3 + r.h3) % (2 ^ 32), (st.h4 + r.h4) % (2 ^ 32)⟩

/-- Split a byte list into 64-byte chunks. -/
def chunks64 (l : List Nat) : List (List Nat) :=
  if h : l = [] then []
  else l.take 64 :: chunks64 (l.drop 64)
termination_by l.length
decreasing_by
  simp only [List.length_drop]
  have : 0 < l.length := List.length_pos.mpr h
  omega

/-- SHA-1 digest (20 bytes) of a byte list. -/
def sha1 (msg : List Nat) : List Nat :=
  let init : Sha1State := ⟨0x67452301, 0xEFCDAB89, 0x98BADCFE, 0x10325476, 0xC3D2E1F0⟩
  let f := (chunks64 (sha1Pad msg)).foldl sha1Chunk init
  beBytes 4 f.h0 ++ beBytes 4 f.h1 ++ beBytes 4 f.h2 ++ beBytes 4 f.h3 ++ beBytes 4 f.h4

/-- Lower-case hexadecimal digit. -/
def hexDigit (n : Nat) : Char :=
  if n < 10 then Char.ofNat (48 + n) else Char.ofNat (87 + n)

/-- Two-digit lower-case hex of a byte. -/
def byteHex (b : Nat) : List Char := [hexDigit (b / 16 % 16), hexDigit (b % 16)]

/-- Render 16 UUID bytes in the canonical 8-4-4-4-12 dashed form. -/
def formatUuid (bs : List Nat) : String :=
  let hx := fun (l : List Nat) => String.mk (l.map byteHex).flatten
  hx (bs.take 4) ++ "-" ++ hx ((bs.drop 4).take 2) ++ "-" ++
    hx ((bs.drop 6).take 2) ++ "-" ++ hx ((bs.drop 8).take 2) ++ "-" ++
    hx (bs.drop 10)

/-- UTF-8 bytes of a string. -/
def utf8Bytes (s : String) : List Nat := s.toUTF8.toList.map (fun b => b.toNat)

/-- Version-5 UUID of a name under a 16-byte namespace: SHA-1 of
namespace bytes ++ name bytes, truncated to 16 bytes with the version
and variant bits forced. -/
def uuidv5 (namespaceBytes : List Nat) (name : String) : String :=
  let digest := (sha1 (namespaceBytes ++ utf8Bytes name)).take 16
  let b6 := digest.getD 6 0 &&& 0x0f ||| 0x50
  let b8 := digest.getD 8 0 &&& 0x3f ||| 0x80
  formatUuid ((digest.set 6 b6).set 8 b8)

/-- The standard URL namespace `uuidv5.URL` =
6ba7b811-9dad-11d1-80b4-00c04fd430c8, as bytes. -/
def urlNamespaceBytes : List Nat :=
  [0x6b, 0xa7, 0xb8, 0x11, 0x9d, 0xad, 0x11, 0xd1,
   0x80, 0xb4, 0x00, 0xc0, 0x4f, 0xd4, 0x30, 0xc8]

/-- `mediaUrlHash` from `SirvClient.ts`:
`uuidv5(mediaUrl, uuidv5.URL)`. -/
def mediaUrlHash (mediaUrl : String) : String := uuidv5 urlNamespaceBytes mediaUrl

/-! ## The Sirv media client

`SirvClient.ts` is stateless apart from the process-wide configuration
snapshot.  Each operation is embedded as a function of
 - the configuration (`SirvConfig`, mirroring `SIRV_CONFIG`),
 - oracles for the network calls it may make (`NetResult`: either the
   transport throws, or a response with a status, status text and body
   arrives), and
 - its declared parameters.
Each operation returns the JavaScript outcome (`Outcome`: a normal
return value or a thrown exception) together with the list of network
requests it issued, in order, so that "no network request is made" and
the content of issued requests are provable. -/

/-- The process-wide configuration snapshot `SIRV_CONFIG` (each
credential is `process.env... ?? null`). -/
structure SirvConfig where
  clientId : Option String
  clientSecret : Option String
  clientAdminId : Option String
  clientAdminSecret : Option String
  baseUrl : String
deriving DecidableEq, Repr

/-- Outcome of one network call, as seen by the awaiting caller: the
transport throws, or a response with status, status text and body. -/
inductive NetResult (α : Type) where
  | throws (msg : String)
  | response (status : Nat) (statusText : String) (data : α)
deriving DecidableEq, Repr

/-- Result of a JavaScript async function: a value, or a thrown
exception (carrying its message). -/
inductive Outcome (α : Type) where
  | ok (a : α)
  | exn (msg : String)
deriving DecidableEq, Repr

/-- Body of an upload request: raw image bytes (`upload`) or the
owner-marker JSON object (`addUserIdFile`). -/
inductive UploadBody where
  | bytes (data : List Nat)
  | uidJson (uid : String) (ts : Nat)
deriving DecidableEq, Repr

/-- A network request issued against the Sirv API. -/
inductive Request where
  | tokenReq (isAdmin : Bool)
  | searchReq (query : String) (size : Nat)
  | mkdirReq (dirname : String)
  | uploadReq (filename : String) (contentType : String) (body : UploadBody)
  | deleteReq (filename : String)
deriving DecidableEq, Repr

/-- The credential pair handed to the token endpoint. -/
structure TokenParamsType where
  clientId : Option String
  clientSecret : Option String
deriving DecidableEq, Repr

/-- `_validateTokenParams`: both halves non-null. -/
def _validateTokenParams (p : TokenParamsType) : Bool :=
  p.clientId.isSome && p.clientSecret.isSome

/-- `getToken(isAdmin)`: select the credential pair; if either half is
missing, log and return `undefined` without any network call; otherwise
post to `/token`; on status 200 return the body's token field, else
throw. -/
def getToken (cfg : SirvConfig) (net : NetResult String) (isAdmin : Bool) :
    Outcome (Option String) × List Request :=
  let params : TokenParamsType :=
    if isAdmin then ⟨cfg.clientAdminId, cfg.clientAdminSecret⟩
    else ⟨cfg.clientId, cfg.clientSecret⟩
  if _validateTokenParams params then
    match net with
    | NetResult.throws m => (Outcome.exn m, [Request.tokenReq isAdmin])
    | NetResult.response status statusText tok =>
      if status == 200 then (Outcome.ok (some tok), [Request.tokenReq isAdmin])
      else (Outcome.exn ("Sirv API.getToken() error" ++ statusText),
        [Request.tokenReq isAdmin])
  else (Outcome.ok none, [])

/-- `getAdminToken()`. -/
def getAdminToken (cfg : SirvConfig) (net : NetResult String) :
    Outcome (Option String) × List Request :=
  getToken cfg net true

/-- `getAdminTokenIfNotExist(token?)`: return the caller-supplied token
unchanged, else acquire an admin token, throwing if acquisition yields
nothing. -/
def getAdminTokenIfNotExist (cfg : SirvConfig) (net : NetResult String)
    (token : Option String) : Outcome String × List Request :=
  match token with
  | some t => (Outcome.ok t, [])
  | none =>
    match getAdminToken cfg net with
    | (Outcome.ok (some t), reqs) => (Outcome.ok t, reqs)
    | (Outcome.ok none, reqs) =>
      (Outcome.exn "Sirv API.getUserImages(): unable to get a token", reqs)
    | (Outcome.exn m, reqs) => (Outcome.exn m, reqs)

/-- `getTokenIfNotExist(token?)`: as above with a read-only token. -/
def getTokenIfNotExist (cfg : SirvConfig) (net : NetResult String)
    (token : Option String) : Outcome String × List Request :=
  match token with
  | some t => (Outcome.ok t, [])
  | none =>
    match getToken cfg net false with
    | (Outcome.ok (some t), reqs) => (Outcome.ok t, reqs)
    | (Outcome.ok none, reqs) =>
      (Outcome.exn "Sirv API.getUserImages(): unable to get a token", reqs)
    | (Outcome.exn m, reqs) => (Outcome.exn m, reqs)

/-- The `{width, height, format}` projection produced by `stripMeta`. -/
structure StrippedMeta where
  width : Int
  height : Int
  format : String
deriving DecidableEq, Repr

/-- Raw metadata of a search hit: the three projected fields plus
whatever else the API returned. -/
structure RawMeta where
  width : Int
  height : Int
  format : String
  extra : List (String × String)
deriving DecidableEq, Repr

/-- `stripMeta`: destructure `{width, height, format}` and rebuild an
object with exactly those fields. -/
def stripMeta (m : RawMeta) : StrippedMeta := ⟨m.width, m.height, m.format⟩

/-- The `_source` of one search hit. -/
structure FileSource where
  filename : String
  ctime : String
  mtime : String
  contentType : String
  meta : RawMeta
deriving DecidableEq, Repr

/-- One entry of `res.data.hits`. -/
structure SearchHit where
  source : FileSource
deriving DecidableEq, Repr

/-- A media record as assembled by the client, parameterized by the
shape of its metadata (raw in `getUserImages`, stripped in
`getImagesByFilenames`). -/
structure MediaType (μ : Type) where
  ownerId : String
  filename : String
  mediaId : String
  ctime : String
  mtime : String
  contentType : String
  meta : μ
deriving DecidableEq, Repr

/-- Result record of `getUserImages`. -/
structure UserImageReturnType where
  mediaList : List (MediaType RawMeta)
  mediaIdList : List String
deriving DecidableEq, Repr

/-- Result record of `getImagesByFilenames`. -/
structure ImagesByFilenamesReturn where
  mediaList : List (MediaType StrippedMeta)
  idList : List String
deriving DecidableEq, Repr

/-- `getUserImages(uuid, size = 100, token?)`. -/
def getUserImages (cfg : SirvConfig) (tokenNet : NetResult String)
    (searchNet : NetResult (Option (List SearchHit))) (uuid : String)
    (size : Nat) (token : Option String) :
    Outcome UserImageReturnType × List Request :=
  match getTokenIfNotExist cfg tokenNet token with
  | (Outcome.exn m, reqs) => (Outcome.exn m, reqs)
  | (Outcome.ok _t, reqs) =>
    let query :=
      "(extension:.jpg OR extension:.jpeg OR extension:.png) AND dirname:\\/u\\/" ++
        uuid ++ " AND -dirname:\\/.Trash AND -filename:uid.json"
    let reqs := reqs ++ [Request.searchReq query size]
    match searchNet with
    | NetResult.throws m => (Outcome.exn m, reqs)
    | NetResult.response status statusText dataHits =>
      match dataHits with
      | some hits =>
        if status == 200 then
          (Outcome.ok
            ⟨hits.map (fun e =>
                ⟨uuid, e.source.filename, mediaUrlHash e.source.filename,
                  e.source.ctime, e.source.mtime, e.source.contentType,
                  e.source.meta⟩),
              hits.map (fun e => mediaUrlHash e.source.filename)⟩, reqs)
        else (Outcome.exn ("Sirv API.getUserImages() error" ++ statusText), reqs)
      | none => (Outcome.exn ("Sirv API.getUserImages() error" ++ statusText), reqs)

/-- The whitespace class of JavaScript `String.prototype.trim`. -/
def jsWhitespace (c : Char) : Bool :=
  c == ' ' || c == '\t' || c == '\n' || c == '\r' ||
  c == Char.ofNat 11 || c == Char.ofNat 12 || c == Char.ofNat 0xA0 ||
  c == Char.ofNat 0x2028 || c == Char.ofNat 0x2029 || c == Char.ofNat 0xFEFF

/-- JavaScript `String.prototype.trim`: strip whitespace from both
ends. -/
def jsTrim (s : String) : String :=
  String.mk (((s.data.dropWhile jsWhitespace).reverse.dropWhile jsWhitespace).reverse)

/-- JavaScript `String.prototype.toLowerCase` (ASCII-relevant part). -/
def jsToLowerCase (s : String) : String := String.mk (s.data.map Char.toLower)

/-- Node `path.basename` (posix): last path component, ignoring trailing
slashes. -/
def basename (p : String) : String :=
  let cs := p.data
  let rev := cs.reverse.dropWhile (fun c => c == '/')
  if rev.isEmpty then (if cs.isEmpty then "" else "/")
  else String.mk (rev.takeWhile (fun c => c != '/')).reverse

/-- `name.replace(/\//g, '\\\\//')`: each `/` becomes `\\//`. -/
def escapeSlashes (s : String) : String :=
  String.mk (s.data.foldr
    (fun c acc => if c == '/' then '\\' :: '\\' :: '/' :: '/' :: acc else c :: acc)
    [])

/-- One clause of the filename search query.  (`basename` is total, so
the `name == null` guard of the source never fires.) -/
def filenameClause (file : String) : String :=
  "filename:" ++ escapeSlashes (jsTrim (basename file))

/-- `getImagesByFilenames(fileList, token?)`: empty input returns the
empty result before any token or network activity; otherwise search,
and on success map each hit with owner unset and stripped metadata. -/
def getImagesByFilenames (cfg : SirvConfig) (tokenNet : NetResult String)
    (searchNet : NetResult (Option (List SearchHit))) (fileList : List String)
    (token : Option String) : Outcome ImagesByFilenamesReturn × List Request :=
  if fileList.length == 0 then (Outcome.ok ⟨[], []⟩, [])
  else
    match getTokenIfNotExist cfg tokenNet token with
    | (Outcome.exn m, reqs) => (Outcome.exn m, reqs)
    | (Outcome.ok _t, reqs) =>
      let query :=
        "(" ++ String.intercalate " OR " (fileList.map filenameClause) ++
          ") AND -dirname:\\/.Trash"
      let reqs := reqs ++ [Request.searchReq query 50]
      match searchNet with
      | NetResult.throws m => (Outcome.exn m, reqs)
      | NetResult.response status statusText dataHits =>
        match dataHits with
        | some hits =>
          if status == 200 then
            (Outcome.ok
              ⟨hits.map (fun e =>
                  ⟨"", e.source.filename, mediaUrlHash e.source.filename,
                    e.source.ctime, e.source.mtime, e.source.contentType,
                    stripMeta e.source.meta⟩),
                hits.map (fun e => mediaUrlHash e.source.filename)⟩, reqs)
          else (Outcome.exn ("Sirv API.searchUserImage() error" ++ statusText), reqs)
        | none => (Outcome.exn ("Sirv API.searchUserImage() error" ++ statusText), reqs)

/-- `createUserDir(uuid, token?)`.  The source calls
`getAdminTokenIfNotExist()` with no argument — the `token` parameter is
ignored — and does so before entering the try block, so only the mkdir
transport call is guarded by the catch. -/
def createUserDir (cfg : SirvConfig) (tokenNet : NetResult String)
    (mkdirNet : NetResult Unit) (uuid : String) (token : Option String) :
    Outcome Bool × List Request :=
  match getAdminTokenIfNotExist cfg tokenNet none with
  | (Outcome.exn m, reqs) => (Outcome.exn m, reqs)
  | (Outcome.ok _t, reqs) =>
    let reqs := reqs ++ [Request.mkdirReq ("/u/" ++ uuid)]
    match mkdirNet with
    | NetResult.throws _ => (Outcome.ok false, reqs)
    | NetResult.response status _ _ => (Outcome.ok (status == 200), reqs)

/-- `upload(filename, imageData, token?)`. -/
def upload (cfg : SirvConfig) (tokenNet : NetResult String)
    (upNet : NetResult Unit) (filename : String) (imageData : List Nat)
    (token : Option String) : Outcome String × List Request :=
  match getAdminTokenIfNotExist cfg tokenNet token with
  | (Outcome.exn m, reqs) => (Outcome.exn m, reqs)
  | (Outcome.ok _t, reqs) =>
    let reqs := reqs ++
      [Request.uploadReq filename "image/jpeg" (UploadBody.bytes imageData)]
    match upNet with
    | NetResult.throws m => (Outcome.exn m, reqs)
    | NetResult.response status _ _ =>
      if 200 ≤ status && status ≤ 204 then (Outcome.ok filename, reqs)
      else (Outcome.exn ("Image API upload() failed.  Status: " ++ toString status), reqs)

/-- `remove(filename, token?)`. -/
def remove (cfg : SirvConfig) (tokenNet : NetResult String)
    (delNet : NetResult Unit) (filename : String) (token : Option String) :
    Outcome String × List Request :=
  match getAdminTokenIfNotExist cfg tokenNet token with
  | (Outcome.exn m, reqs) => (Outcome.exn m, reqs)
  | (Outcome.ok _t, reqs) =>
    let reqs := reqs ++ [Request.deleteReq filename]
    match delNet with
    | NetResult.throws m => (Outcome.exn m, reqs)
    | NetResult.response status _ _ =>
      if 200 ≤ status && status ≤ 204 then (Outcome.ok filename, reqs)
      else (Outcome.exn ("Image API delete() failed.  Status: " ++ toString status), reqs)

/-- `addUserIdFile(filename, uid, token?)`: bail out with `false` on a
null uid before any other work; the whole body, token acquisition
included, sits inside the try whose catch logs and returns `false`.
`now` is the value `Date.now()` would produce. -/
def addUserIdFile (cfg : SirvConfig) (tokenNet : NetResult String)
    (upNet : NetResult Unit) (now : Nat) (filename : String)
    (uid : Option String) (token : Option String) :
    Outcome Bool × List Request :=
  match uid with
  | none => (Outcome.ok false, [])
  | some u =>
    match getAdminTokenIfNotExist cfg tokenNet token with
    | (Outcome.exn _, reqs) => (Outcome.ok false, reqs)
    | (Outcome.ok _t, reqs) =>
      let reqs := reqs ++
        [Request.uploadReq filename "application/json"
          (UploadBody.uidJson (jsToLowerCase u) now)]
      match upNet with
      | NetResult.throws _ => (Outcome.ok false, reqs)
      | NetResult.response status _ _ =>
        if 200 ≤ status && status ≤ 204 then (Outcome.ok true, reqs)
        else (Outcome.ok false, reqs)

/-! ## Auxiliary definitions used by the statements -/

/-- Total of the per-category counts in a count map. -/
def sTot (acc : List (String × Nat)) : Nat := (acc.map (fun p => p.2)).sum

/-- Keys of a count map, in order. -/
def keysOf (acc : List (String × Nat)) : List String := acc.map (fun p => p.1)

/-- Total number of `true` discipline flags across a collection of
climbs. -/
def trueFlags (climbs : List ClimbType) : Nat :=
  (climbs.map (fun c => (c.filter (fun kv => kv.2)).length)).sum

/-- The credential pair `getToken` selects for a privilege level. -/
def selectedParams (cfg : SirvConfig) (isAdmin : Bool) : TokenParamsType :=
  if isAdmin then ⟨cfg.clientAdminId, cfg.clientAdminSecret⟩
  else ⟨cfg.clientId, cfg.clientSecret⟩

/-- A configuration with all four credentials present. -/
def cfgFull : SirvConfig :=
  ⟨some "ro-id", some "ro-secret", some "rw-id", some "rw-secret",
    "https://media.example.com"⟩

/-- A configuration whose admin credential pair is unset. -/
def cfgNoAdmin : SirvConfig :=
  ⟨some "ro-id", some "ro-secret", none, none, "https://media.example.com"⟩

/-- The record `getImagesByFilenames` builds from one hit: owner unset,
metadata stripped. -/
def mediaFromHitStripped (e : SearchHit) : MediaType StrippedMeta :=
  ⟨"", e.source.filename, mediaUrlHash e.source.filename, e.source.ctime,
    e.source.mtime, e.source.contentType, stripMeta e.source.meta⟩

/-- The record `getUserImages` builds from one hit: owner set to the
requested uuid, metadata passed through raw. -/
def mediaFromHitRaw (uuid : String) (e : SearchHit) : MediaType RawMeta :=
  ⟨uuid, e.source.filename, mediaUrlHash e.source.filename, e.source.ctime,
    e.source.mtime, e.source.contentType, e.source.meta⟩

/-- A concrete search hit used to instantiate the contracts. -/
def hitA : SearchHit :=
  ⟨⟨"a.jpg", "2024-01-01", "2024-01-02", "image/jpeg",
    ⟨640, 480, "jpeg", [("approved", "true")]⟩⟩⟩

/-! ## Lemmas about the percent/color aggregation -/

theorem foldl_add_eq_sum (l : List Nat) (a : Nat) :
    l.foldl (fun x y => x + y) a = a + l.sum := by
  induction l generalizing a with
  | nil => simp
  | cons x xs ih => simp only [List.foldl_cons, List.sum_cons, ih]; omega

theorem map_incr_of_not_mem (k : String) (acc : List (String × Nat))
    (h : ∀ p ∈ acc, p.1 ≠ k) :
    acc.map (fun p => if p.1 == k then (p.1, p.2 + 1) else p) = acc := by
  induction acc with
  | nil => rfl
  | cons p rest ih =>
    have hp : p.1 ≠ k := h p (List.mem_cons_self p rest)
    simp only [List.map_cons]
    rw [if_neg (by simpa using hp), ih (fun q hq => h q (List.mem_cons_of_mem _ hq))]

theorem keysOf_incr (k : String) (acc : List (String × Nat)) :
    keysOf (acc.map (fun p => if p.1 == k then (p.1, p.2 + 1) else p)) = keysOf acc := by
  unfold keysOf
  rw [List.map_map]
  refine List.map_congr_left ?_
  intro p _
  by_cases hp : p.1 = k
  · simp [hp]
  · simp [hp]

theorem sTot_incr (k : String) (acc : List (String × Nat))
    (hnd : (keysOf acc).Nodup) (hany : acc.any (fun p => p.1 == k) = true) :
    sTot (acc.map (fun p => if p.1 == k then (p.1, p.2 + 1) else p)) = sTot acc + 1 := by
  induction acc with
  | nil => simp at hany
  | cons p rest ih =>
    have hndc : (p.1 :: keysOf rest).Nodup := by
      simpa only [keysOf, List.map_cons] using hnd
    have hnd0 := List.nodup_cons.mp hndc
    have hnd1 : p.1 ∉ keysOf rest := hnd0.1
    have hnd2 : (keysOf rest).Nodup := hnd0.2
    by_cases hp : p.1 = k
    · have hrest : ∀ q ∈ rest, q.1 ≠ k := by
        intro q hq hqk
        have hm : q.1 ∈ keysOf rest := List.mem_map_of_mem (fun r => r.1) hq
        rw [hqk, ← hp] at hm
        exact hnd1 hm
      simp only [List.map_cons]
      rw [if_pos (by simpa using hp), map_incr_of_not_mem k rest hrest]
      simp only [sTot, List.map_cons, List.sum_cons]
      omega
    · have hany' : rest.any (fun p => p.1 == k) = true := by
        rcases List.any_eq_true.mp hany with ⟨q, hq, hqk⟩
        rcases List.mem_cons.mp hq with h1 | h2
        · subst h1
          exact absurd (by simpa using hqk) hp
        · exact List.any_eq_true.mpr ⟨q, h2, by simpa using hqk⟩
      have hih := ih hnd2 hany'
      simp only [List.map_cons]
      rw [if_neg (by simpa using hp)]
      simp only [sTot, List.map_cons, List.sum_cons] at hih ⊢
      omega

theorem not_mem_keys_of_not_any (k : String) (acc : List (String × Nat))
    (h : ¬ acc.any (fun p => p.1 == k) = true) : k ∉ keysOf acc := by
  intro hk
  obtain ⟨p, hp, hpe⟩ := List.mem_map.mp hk
  exact h (List.any_eq_true.mpr ⟨p, hp, by simp [hpe]⟩)

theorem nodup_keys_bump (k : String) (acc : List (String × Nat))
    (h : (keysOf acc).Nodup) : (keysOf (bump acc k)).Nodup := by
  unfold bump
  split
  · rw [keysOf_incr]; exact h
  · next hany =>
    have hk : k ∉ keysOf acc := not_mem_keys_of_not_any k acc hany
    simp only [keysOf, List.map_append, List.map_cons, List.map_nil]
    rw [List.nodup_append]
    refine ⟨by simpa [keysOf] using h, List.nodup_singleton k, fun a ha hb => ?_⟩
    have hak : a = k := by simpa using hb
    subst hak
    exact hk (by simpa [keysOf] using ha)

theorem sTot_bump (k : String) (acc : List (String × Nat))
    (h : (keysOf acc).Nodup) : sTot (bump acc k) = sTot acc + 1 := by
  unfold bump
  split
  · next hany => exact sTot_incr k acc h hany
  · simp [sTot]

theorem addClimb_spec (climb : ClimbType) : ∀ acc : List (String × Nat),
    (keysOf acc).Nodup →
    sTot (addClimb acc climb) = sTot acc + (climb.filter (fun kv => kv.2)).length ∧
    (keysOf (addClimb acc climb)).Nodup := by
  induction climb with
  | nil => intro acc h; simp [addClimb, h]
  | cons kv rest ih =>
    intro acc h
    by_cases hkv : kv.2
    · have h2 := nodup_keys_bump kv.1 acc h
      obtain ⟨e1, e2⟩ := ih (bump acc kv.1) h2
      have hstep : addClimb acc (kv :: rest) = addClimb (bump acc kv.1) rest := by
        simp [addClimb, List.foldl_cons, hkv]
      refine ⟨?_, by rw [hstep]; exact e2⟩
      rw [hstep, e1, sTot_bump kv.1 acc h]
      simp [List.filter_cons, hkv]
      omega
    · obtain ⟨e1, e2⟩ := ih acc h
      have hstep : addClimb acc (kv :: rest) = addClimb acc rest := by
        simp [addClimb, List.foldl_cons, hkv]
      refine ⟨?_, by rw [hstep]; exact e2⟩
      rw [hstep, e1]
      simp [List.filter_cons, hkv]

theorem typeToCountOf_spec (climbs : List ClimbType) : ∀ acc : List (String × Nat),
    (keysOf acc).Nodup →
    sTot (climbs.foldl addClimb acc) = sTot acc + trueFlags climbs ∧
    (keysOf (climbs.foldl addClimb acc)).Nodup := by
  induction climbs with
  | nil => intro acc h; simp [trueFlags, h]
  | cons c rest ih =>
    intro acc h
    obtain ⟨e1, e2⟩ := addClimb_spec c acc h
    obtain ⟨f1, f2⟩ := ih (addClimb acc c) e2
    refine ⟨?_, by simpa [List.foldl_cons] using f2⟩
    simp only [List.foldl_cons, f1, e1, trueFlags, List.map_cons, List.sum_cons]
    simp only [trueFlags] at f1 ⊢
    omega

theorem sTot_typeToCountOf (climbs : List ClimbType) :
    sTot (typeToCountOf climbs) = trueFlags climbs ∧
    (keysOf (typeToCountOf climbs)).Nodup := by
  have h := typeToCountOf_spec climbs [] (by simp [keysOf])
  simpa [typeToCountOf, sTot] using h

theorem jsSum_foldl (l : List ℚ) : ∀ q : ℚ,
    (l.map JSNumber.num).foldl jsAdd (JSNumber.num q) = JSNumber.num (q + l.sum) := by
  induction l with
  | nil => intro q; simp
  | cons x xs ih =>
    intro q
    simp only [List.map_cons, List.foldl_cons, List.sum_cons]
    show (xs.map JSNumber.num).foldl jsAdd (jsAdd (JSNumber.num q) (JSNumber.num x)) = _
    rw [show jsAdd (JSNumber.num q) (JSNumber.num x) = JSNumber.num (q + x) from rfl, ih]
    ring_nf

theorem jsSum_map_num (l : List ℚ) :
    jsSum (l.map JSNumber.num) = JSNumber.num l.sum := by
  simpa [jsSum] using jsSum_foldl l 0

theorem percents_eq (colorMap : String → Option String) (climbs : List ClimbType) :
    (computeClimbingPercentsAndColors colorMap climbs).percents =
      ((typeToCountOf climbs).map (fun p => p.2)).map (fun (count : ℕ) =>
        jsMul (jsDiv (JSNumber.num count)
          (JSNumber.num ((((typeToCountOf climbs).map (fun p => p.2)).foldl
            (fun a c => a + c) 0 : ℕ))))
          (JSNumber.num 100)) := rfl

theorem colors_eq (colorMap : String → Option String) (climbs : List ClimbType) :
    (computeClimbingPercentsAndColors colorMap climbs).colors =
      (typeToCountOf climbs).map (fun p => colorMap p.1) := rfl

theorem sum_map_div_mul (l : List ℕ) (T : ℚ) :
    (l.map (fun (c : ℕ) => ((c : ℚ)) / T * 100)).sum = ((l.sum : ℕ) : ℚ) / T * 100 := by
  induction l with
  | nil => simp
  | cons x xs ih =>
    simp only [List.map_cons, List.sum_cons, ih]
    push_cast
    ring

/-- C1: for every non-empty collection of climb records in which at least
one record has at least one true discipline flag, the percents list
returned by `computeClimbingPercentsAndColors` sums to 100 — each
category's true-flag count divided by the total true-flag count across
all categories, times 100 (finite JavaScript arithmetic modelled as
exact rationals). -/
theorem C1_percents_sum_to_100 (colorMap : String → Option String)
    (climbs : List ClimbType) (hne : climbs ≠ [])
    (hflag : ∃ c ∈ climbs, ∃ kv ∈ c, kv.2 = true) :
    jsSum (computeClimbingPercentsAndColors colorMap climbs).percents =
      JSNumber.num 100 := by
  clear hne
  obtain ⟨htot, hnd⟩ := sTot_typeToCountOf climbs
  have hpos : 1 ≤ trueFlags climbs := by
    obtain ⟨c, hc, kv, hkv, htrue⟩ := hflag
    have h1 : kv ∈ c.filter (fun kv => kv.2) :=
      List.mem_filter.mpr ⟨hkv, by simp [htrue]⟩
    have h2 : 0 < (c.filter (fun kv => kv.2)).length :=
      List.length_pos.mpr (List.ne_nil_of_mem h1)
    have h3 : (c.filter (fun kv => kv.2)).length ∈
        climbs.map (fun c => (c.filter (fun kv => kv.2)).length) :=
      List.mem_map_of_mem _ hc
    have h4 := List.single_le_sum (fun (a : ℕ) _ => Nat.zero_le a) _ h3
    unfold trueFlags
    omega
  have hfold : ((typeToCountOf climbs).map (fun p => p.2)).foldl
      (fun a c => a + c) 0 = trueFlags climbs := by
    rw [foldl_add_eq_sum]
    simpa [sTot] using htot
  have hTQ : ((trueFlags climbs : ℕ) : ℚ) ≠ 0 :=
    Nat.cast_ne_zero.mpr (by omega)
  rw [percents_eq, hfold]
  have hmap : ((typeToCountOf climbs).map (fun p => p.2)).map (fun (count : ℕ) =>
      jsMul (jsDiv (JSNumber.num count) (JSNumber.num ((trueFlags climbs : ℕ))))
        (JSNumber.num 100)) =
      (((typeToCountOf climbs).map (fun p => p.2)).map
        (fun (count : ℕ) => ((count : ℚ)) / (trueFlags climbs : ℚ) * 100)).map
        JSNumber.num := by
    simp only [List.map_map]
    refine List.map_congr_left ?_
    intro p _
    simp only [Function.comp_apply]
    rw [show jsDiv (JSNumber.num ((p.2 : ℚ))) (JSNumber.num ((trueFlags climbs : ℚ))) =
      JSNumber.num ((p.2 : ℚ) / (trueFlags climbs : ℚ)) from by simp [jsDiv, hTQ]]
    rfl
  rw [hmap, jsSum_map_num, sum_map_div_mul]
  have hsum : ((typeToCountOf climbs).map (fun p => p.2)).sum = trueFlags climbs := by
    simpa [sTot] using htot
  rw [hsum, div_self hTQ, one_mul]

theorem C1_witness :
    [[(("sport" : String), true)]] ≠ ([] : List ClimbType) ∧
    (∃ c ∈ [[(("sport" : String), true)]], ∃ kv ∈ c, kv.2 = true) ∧
    jsSum (computeClimbingPercentsAndColors (fun _ => none)
      [[("sport", true)]]).percents = JSNumber.num 100 :=
  ⟨by simp, by simp, C1_percents_sum_to_100 (fun _ => none) [[("sport", true)]]
    (by simp) (by simp)⟩

theorem addClimb_allFalse (c : ClimbType) (acc : List (String × Nat))
    (h : ∀ kv ∈ c, kv.2 = false) : addClimb acc c = acc := by
  induction c generalizing acc with
  | nil => rfl
  | cons kv rest ih =>
    have hkv : kv.2 = false := h kv (List.mem_cons_self _ _)
    calc addClimb acc (kv :: rest) = addClimb acc rest := by
          simp [addClimb, List.foldl_cons, hkv]
      _ = acc := ih acc (fun q hq => h q (List.mem_cons_of_mem _ hq))

theorem typeToCountOf_allFalse (climbs : List ClimbType)
    (h : ∀ c ∈ climbs, ∀ kv ∈ c, kv.2 = false) : typeToCountOf climbs = [] := by
  have haux : ∀ (cl : List ClimbType) (acc : List (String × Nat)),
      (∀ c ∈ cl, ∀ kv ∈ c, kv.2 = false) → cl.foldl addClimb acc = acc := by
    intro cl
    induction cl with
    | nil => intro acc _; rfl
    | cons c rest ih =>
      intro acc hh
      rw [List.foldl_cons, addClimb_allFalse c acc (hh c (List.mem_cons_self _ _))]
      exact ih acc (fun d hd => hh d (List.mem_cons_of_mem _ hd))
  simpa [typeToCountOf] using haux climbs [] h

/-- C2 (counterexample): a collection whose total count of true
discipline flags is zero — one climb, its single flag false — for which
`computeClimbingPercentsAndColors` produces an empty percents list, not
NaN percentages. -/
theorem C2_counterexample :
    (computeClimbingPercentsAndColors (fun _ => none)
      [[("sport", false)]]).percents = [] ∧
    JSNumber.nan ∉ (computeClimbingPercentsAndColors (fun _ => none)
      [[("sport", false)]]).percents := by
  refine ⟨rfl, ?_⟩
  rw [show (computeClimbingPercentsAndColors (fun _ => none)
    [[("sport", false)]]).percents = [] from rfl]
  simp

/-- C2 (amended): for every collection whose total count of true
discipline flags is zero (the empty collection included), the percents
and colors lists are empty — in particular no NaN percentage is ever
produced, because a category enters the count map only on a true flag. -/
theorem C2_zero_flags_empty_percents (colorMap : String → Option String)
    (climbs : List ClimbType) (h : ∀ c ∈ climbs, ∀ kv ∈ c, kv.2 = false) :
    (computeClimbingPercentsAndColors colorMap climbs).percents = [] ∧
    (computeClimbingPercentsAndColors colorMap climbs).colors = [] ∧
    JSNumber.nan ∉ (computeClimbingPercentsAndColors colorMap climbs).percents := by
  have ht := typeToCountOf_allFalse climbs h
  refine ⟨?_, ?_, ?_⟩ <;> simp [percents_eq, colors_eq, ht]

theorem C2_witness :
    (∀ c ∈ [[(("sport" : String), false)]], ∀ kv ∈ c, kv.2 = false) ∧
    ((computeClimbingPercentsAndColors (fun _ => none)
        [[("sport", false)]]).percents = [] ∧
      (computeClimbingPercentsAndColors (fun _ => none)
        [[("sport", false)]]).colors = [] ∧
      JSNumber.nan ∉ (computeClimbingPercentsAndColors (fun _ => none)
        [[("sport", false)]]).percents) :=
  ⟨by decide, C2_zero_flags_empty_percents (fun _ => none) [[("sport", false)]]
    (by decide)⟩

/-! ## Lemmas about the name sanitizer -/

theorem sanitizeCore_decomp (cs : List Char) : ∀ first : Bool,
    ∃ pre tok suf : List Char,
      cs = pre ++ tok ++ suf ∧ sanitizeCore first cs = pre ++ suf := by
  induction cs with
  | nil => intro first; exact ⟨[], [], [], rfl, rfl⟩
  | cons c rest ih =>
    intro first
    cases h : matchAt first (c :: rest) with
    | some len =>
      refine ⟨[], (c :: rest).take len, (c :: rest).drop len, ?_, ?_⟩
      · simp
      · simp [sanitizeCore, h]
    | none =>
      obtain ⟨pre, tok, suf, h1, h2⟩ := ih false
      refine ⟨c :: pre, tok, suf, ?_, ?_⟩
      · simp [h1]
      · simp [sanitizeCore, h, h2]

/-- C3 (counterexample): the claim says a decorative token is removed
only when it occurs at the start of the string, so `"My 1-Route"` —
which has no leading decorative token — should be returned unchanged;
the regex anchor binds only the parenthesized alternative, and the
numeric-dash token `1-` is stripped from the middle. -/
theorem C3_counterexample :
    sanitizeName "My 1-Route" = "My Route" ∧
    sanitizeName "My 1-Route" ≠ "My 1-Route" := by decide

/-- C3 (amended): `sanitizeName` removes at most one decorative token —
the leftmost match, leaving prefix and remainder unchanged — but only
the parenthesized alternative is anchored to the start of the string;
numeric-dash and abbreviation-dot tokens are stripped wherever they
first occur.  The four specified examples hold as stated, and a
parenthesized code in mid-string is not stripped. -/
theorem C3_sanitize_one_token :
    (∀ s : String, ∃ pre tok suf : List Char,
      s.data = pre ++ tok ++ suf ∧ (sanitizeName s).data = pre ++ suf) ∧
    sanitizeName "(6) My Route" = "My Route" ∧
    sanitizeName "1-My Route" = "My Route" ∧
    sanitizeName "a.My Route" = "My Route" ∧
    sanitizeName "My Route" = "My Route" ∧
    sanitizeName "My (6) Route" = "My (6) Route" := by
  refine ⟨?_, by decide, by decide, by decide, by decide, by decide⟩
  intro s
  obtain ⟨pre, tok, suf, h1, h2⟩ := sanitizeCore_decomp s.data true
  exact ⟨pre, tok, suf, h1, h2⟩

/-! ## Lemmas about the token manager -/

theorem validate_iff (p : TokenParamsType) :
    _validateTokenParams p = true ↔ p.clientId ≠ none ∧ p.clientSecret ≠ none := by
  cases p with
  | mk a b => cases a <;> cases b <;> simp [_validateTokenParams]

theorem getToken_eq (cfg : SirvConfig) (net : NetResult String) (isAdmin : Bool) :
    getToken cfg net isAdmin =
      if _validateTokenParams (selectedParams cfg isAdmin) then
        match net with
        | NetResult.throws m => (Outcome.exn m, [Request.tokenReq isAdmin])
        | NetResult.response status statusText tok =>
          if status == 200 then (Outcome.ok (some tok), [Request.tokenReq isAdmin])
          else (Outcome.exn ("Sirv API.getToken() error" ++ statusText),
            [Request.tokenReq isAdmin])
      else (Outcome.ok none, []) := rfl

theorem getToken_reqs (cfg : SirvConfig) (net : NetResult String) (isAdmin : Bool) :
    (getToken cfg net isAdmin).2 = [] ∨
    (getToken cfg net isAdmin).2 = [Request.tokenReq isAdmin] := by
  rw [getToken_eq]
  split
  · cases net with
    | throws m => right; rfl
    | response s st tok =>
      by_cases h : (s == 200) = true
      · simp [h]
      · simp [h]
  · left; rfl

theorem getAdminTokenIfNotExist_reqs (cfg : SirvConfig) (net : NetResult String)
    (token : Option String) :
    (getAdminTokenIfNotExist cfg net token).2 = [] ∨
    (getAdminTokenIfNotExist cfg net token).2 = [Request.tokenReq true] := by
  cases token with
  | some t => left; rfl
  | none =>
    have h := getToken_reqs cfg net true
    rcases hg : getToken cfg net true with ⟨o, reqs⟩
    rw [hg] at h
    unfold getAdminTokenIfNotExist getAdminToken
    rw [hg]
    rcases o with a | m
    · rcases a with _ | t <;> simpa using h
    · simpa using h

theorem getTokenIfNotExist_reqs (cfg : SirvConfig) (net : NetResult String)
    (token : Option String) :
    (getTokenIfNotExist cfg net token).2 = [] ∨
    (getTokenIfNotExist cfg net token).2 = [Request.tokenReq false] := by
  cases token with
  | some t => left; rfl
  | none =>
    have h := getToken_reqs cfg net false
    rcases hg : getToken cfg net false with ⟨o, reqs⟩
    rw [hg] at h
    unfold getTokenIfNotExist
    rw [hg]
    rcases o with a | m
    · rcases a with _ | t <;> simpa using h
    · simpa using h

/-- C5: `getToken` returns `undefined` without issuing any network
request when either half of the selected credential pair is unset;
otherwise it posts to the token endpoint and, on status 200, returns the
token field of the response body, and on any other status throws an
error whose message includes the transport status text. -/
theorem C5_getToken_contract (cfg : SirvConfig) (net : NetResult String)
    (isAdmin : Bool) :
    ((selectedParams cfg isAdmin).clientId = none ∨
        (selectedParams cfg isAdmin).clientSecret = none →
      getToken cfg net isAdmin = (Outcome.ok none, [])) ∧
    (∀ st tok, (selectedParams cfg isAdmin).clientId ≠ none →
      (selectedParams cfg isAdmin).clientSecret ≠ none →
      net = NetResult.response 200 st tok →
      getToken cfg net isAdmin = (Outcome.ok (some tok), [Request.tokenReq isAdmin])) ∧
    (∀ s st tok, (selectedParams cfg isAdmin).clientId ≠ none →
      (selectedParams cfg isAdmin).clientSecret ≠ none →
      net = NetResult.response s st tok → s ≠ 200 →
      getToken cfg net isAdmin =
        (Outcome.exn ("Sirv API.getToken() error" ++ st), [Request.tokenReq isAdmin])) := by
  refine ⟨?_, ?_, ?_⟩
  · intro h
    rw [getToken_eq, if_neg]
    intro hv
    rcases (validate_iff _).mp hv with ⟨h1, h2⟩
    rcases h with h | h
    · exact h1 h
    · exact h2 h
  · intro st tok h1 h2 hnet
    subst hnet
    rw [getToken_eq, if_pos ((validate_iff _).mpr ⟨h1, h2⟩)]
    rfl
  · intro s st tok h1 h2 hnet hs
    subst hnet
    rw [getToken_eq, if_pos ((validate_iff _).mpr ⟨h1, h2⟩)]
    have : (s == 200) = false := by simpa using hs
    simp only [this]
    rfl

theorem C5_witness :
    getToken cfgNoAdmin (NetResult.response 200 "OK" "tok-a") true =
      (Outcome.ok none, []) ∧
    getToken cfgFull (NetResult.response 200 "OK" "tok-a") false =
      (Outcome.ok (some "tok-a"), [Request.tokenReq false]) ∧
    getToken cfgFull (NetResult.response 403 "Forbidden" "") false =
      (Outcome.exn ("Sirv API.getToken() error" ++ "Forbidden"),
        [Request.tokenReq false]) :=
  ⟨(C5_getToken_contract cfgNoAdmin (NetResult.response 200 "OK" "tok-a") true).1
      (Or.inl rfl),
    (C5_getToken_contract cfgFull (NetResult.response 200 "OK" "tok-a") false).2.1
      "OK" "tok-a" (by decide) (by decide) rfl,
    (C5_getToken_contract cfgFull (NetResult.response 403 "Forbidden" "") false).2.2
      403 "Forbidden" "" (by decide) (by decide) rfl (by decide)⟩

/-! ## Claims about the media client operations -/

/-- C4 (counterexample): `createUserDir` with admin credentials present
and a token endpoint whose transport call throws.  Token acquisition
happens outside the try block, so the exception propagates to the
caller instead of being swallowed into `false`. -/
theorem C4_counterexample :
    createUserDir cfgFull (NetResult.throws "network down")
      (NetResult.response 200 "OK" ()) "user-1" none =
      (Outcome.exn "network down", [Request.tokenReq true]) := rfl

/-- C4 (amended): `createUserDir` swallows exceptions only from the
mkdir transport call (logging and returning `false`), and returns `true`
exactly when the mkdir request succeeds with status 200; a failure
during token acquisition — which runs before the try block —
propagates to the caller. -/
theorem C4_createUserDir_swallows_transport_only (cfg : SirvConfig)
    (tokenNet : NetResult String) (mkdirNet : NetResult Unit) (uuid : String)
    (token : Option String) :
    (∀ m reqs, getAdminTokenIfNotExist cfg tokenNet none = (Outcome.exn m, reqs) →
      (createUserDir cfg tokenNet mkdirNet uuid token).1 = Outcome.exn m) ∧
    (∀ t reqs, getAdminTokenIfNotExist cfg tokenNet none = (Outcome.ok t, reqs) →
      ((∀ m, mkdirNet = NetResult.throws m →
        (createUserDir cfg tokenNet mkdirNet uuid token).1 = Outcome.ok false) ∧
       (∀ s st d, mkdirNet = NetResult.response s st d →
        (createUserDir cfg tokenNet mkdirNet uuid token).1 =
          Outcome.ok (s == 200)))) := by
  refine ⟨?_, ?_⟩
  · intro m reqs h
    unfold createUserDir
    rw [h]
  · intro t reqs h
    refine ⟨?_, ?_⟩
    · intro m hm
      subst hm
      unfold createUserDir
      rw [h]
    · intro s st d hm
      subst hm
      unfold createUserDir
      rw [h]

theorem C4_witness :
    getAdminTokenIfNotExist cfgFull (NetResult.response 200 "OK" "tok-b") none =
      (Outcome.ok "tok-b", [Request.tokenReq true]) ∧
    (createUserDir cfgFull (NetResult.response 200 "OK" "tok-b")
      (NetResult.throws "mkdir failed") "user-1" none).1 = Outcome.ok false :=
  ⟨rfl,
    ((C4_createUserDir_swallows_transport_only cfgFull
        (NetResult.response 200 "OK" "tok-b") (NetResult.throws "mkdir failed")
        "user-1" none).2 "tok-b" [Request.tokenReq true] rfl).1 "mkdir failed" rfl⟩

/-- C6 (counterexample): `createUserDir` is called with a caller-supplied
token; under the claim no token acquisition may happen and the mkdir
(which would respond 200) should yield `true`.  Instead the code ignores
the supplied token, issues a token request, and propagates the
acquisition failure. -/
theorem C6_counterexample :
    createUserDir cfgFull (NetResult.throws "boom")
      (NetResult.response 200 "OK" ()) "user-1" (some "cached-token") =
      (Outcome.exn "boom", [Request.tokenReq true]) := rfl

/-- C6 (amended): the helper contract — use the caller-supplied token
when present with no token request, otherwise acquire one and throw an
explicit error if acquisition yields nothing — holds for
`getAdminTokenIfNotExist`/`getTokenIfNotExist` and for the operations
that forward their token argument (`upload`, `remove`); `createUserDir`
however ignores its token argument and always acquires a fresh admin
token. -/
theorem C6_token_contract (cfg : SirvConfig) (tokenNet : NetResult String)
    (mkdirNet upNet delNet : NetResult Unit) (uuid filename : String)
    (imageData : List Nat) (t : String) :
    (getAdminTokenIfNotExist cfg tokenNet (some t) = (Outcome.ok t, [])) ∧
    (getTokenIfNotExist cfg tokenNet (some t) = (Outcome.ok t, [])) ∧
    ((getAdminToken cfg tokenNet).1 = Outcome.ok none →
      (getAdminTokenIfNotExist cfg tokenNet none).1 =
        Outcome.exn "Sirv API.getUserImages(): unable to get a token") ∧
    ((getToken cfg tokenNet false).1 = Outcome.ok none →
      (getTokenIfNotExist cfg tokenNet none).1 =
        Outcome.exn "Sirv API.getUserImages(): unable to get a token") ∧
    (∀ isAdmin, Request.tokenReq isAdmin ∉
      (upload cfg tokenNet upNet filename imageData (some t)).2) ∧
    (∀ isAdmin, Request.tokenReq isAdmin ∉
      (remove cfg tokenNet delNet filename (some t)).2) ∧
    (createUserDir cfg tokenNet mkdirNet uuid (some t) =
      createUserDir cfg tokenNet mkdirNet uuid none) := by
  refine ⟨rfl, rfl, ?_, ?_, ?_, ?_, rfl⟩
  · intro h
    unfold getAdminTokenIfNotExist
    rcases hg : getAdminToken cfg tokenNet with ⟨o, reqs⟩
    rw [hg] at h
    simp only at h
    subst h
    rfl
  · intro h
    unfold getTokenIfNotExist
    rcases hg : getToken cfg tokenNet false with ⟨o, reqs⟩
    rw [hg] at h
    simp only at h
    subst h
    rfl
  · intro isAdmin
    unfold upload
    rw [show getAdminTokenIfNotExist cfg tokenNet (some t) = (Outcome.ok t, [])
      from rfl]
    cases upNet with
    | throws m => simp
    | response s st d =>
      by_cases h : (200 ≤ s && s ≤ 204) = true
      · simp only [if_pos h]; simp
      · simp only [if_neg h]; simp
  · intro isAdmin
    unfold remove
    rw [show getAdminTokenIfNotExist cfg tokenNet (some t) = (Outcome.ok t, [])
      from rfl]
    cases delNet with
    | throws m => simp
    | response s st d =>
      by_cases h : (200 ≤ s && s ≤ 204) = true
      · simp only [if_pos h]; simp
      · simp only [if_neg h]; simp

theorem C6_witness :
    getAdminTokenIfNotExist cfgNoAdmin (NetResult.response 200 "OK" "tok-c")
      (some "supplied") = (Outcome.ok "supplied", []) ∧
    (getAdminTokenIfNotExist cfgNoAdmin (NetResult.response 200 "OK" "tok-c")
      none).1 = Outcome.exn "Sirv API.getUserImages(): unable to get a token" ∧
    createUserDir cfgNoAdmin (NetResult.response 200 "OK" "tok-c")
      (NetResult.response 200 "OK" ()) "u" (some "supplied") =
    createUserDir cfgNoAdmin (NetResult.response 200 "OK" "tok-c")
      (NetResult.response 200 "OK" ()) "u" none :=
  ⟨(C6_token_contract cfgNoAdmin (NetResult.response 200 "OK" "tok-c")
      (NetResult.response 200 "OK" ()) (NetResult.response 200 "OK" ())
      (NetResult.response 200 "OK" ()) "u" "f" [] "supplied").1,
    (C6_token_contract cfgNoAdmin (NetResult.response 200 "OK" "tok-c")
      (NetResult.response 200 "OK" ()) (NetResult.response 200 "OK" ())
      (NetResult.response 200 "OK" ()) "u" "f" [] "supplied").2.2.1 rfl,
    (C6_token_contract cfgNoAdmin (NetResult.response 200 "OK" "tok-c")
      (NetResult.response 200 "OK" ()) (NetResult.response 200 "OK" ())
      (NetResult.response 200 "OK" ()) "u" "f" [] "supplied").2.2.2.2.2.2⟩

/-! ## Lemmas about the search operations -/

theorem getImagesByFilenames_ok (cfg : SirvConfig) (tokenNet : NetResult String)
    (searchNet : NetResult (Option (List SearchHit))) (fileList : List String)
    (token : Option String) (r : ImagesByFilenamesReturn) (reqs : List Request)
    (h : getImagesByFilenames cfg tokenNet searchNet fileList token =
      (Outcome.ok r, reqs)) :
    (fileList = [] ∧ r = ⟨[], []⟩ ∧ reqs = []) ∨
    (fileList ≠ [] ∧ ∃ hits st,
      searchNet = NetResult.response 200 st (some hits) ∧
      r = ⟨hits.map mediaFromHitStripped,
        hits.map (fun e => mediaUrlHash e.source.filename)⟩) := by
  by_cases hf : (fileList.length == 0) = true
  · left
    have hfe : fileList = [] := by simpa using hf
    subst hfe
    rw [show getImagesByFilenames cfg tokenNet searchNet [] token =
      (Outcome.ok ⟨[], []⟩, []) from rfl] at h
    injection h with h1 h2
    injection h1 with h1
    exact ⟨rfl, h1.symm, h2.symm⟩
  · right
    have hne : fileList ≠ [] := by
      intro he
      subst he
      simp at hf
    refine ⟨hne, ?_⟩
    unfold getImagesByFilenames at h
    rw [if_neg hf] at h
    rcases hg : getTokenIfNotExist cfg tokenNet token with ⟨o, treqs⟩
    rw [hg] at h
    cases o with
    | exn m => simp at h
    | ok tk =>
      cases searchNet with
      | throws m => simp at h
      | response s st data =>
        cases data with
        | none => simp at h
        | some hits =>
          by_cases hs : (s == 200) = true
          · have hs2 : s = 200 := by simpa using hs
            subst hs2
            dsimp only at h
            rw [if_pos (by decide)] at h
            simp only [Prod.mk.injEq, Outcome.ok.injEq] at h
            exact ⟨hits, st, rfl, h.1.symm⟩
          · simp [hs] at h

theorem getUserImages_ok (cfg : SirvConfig) (tokenNet : NetResult String)
    (searchNet : NetResult (Option (List SearchHit))) (uuid : String) (size : Nat)
    (token : Option String) (r : UserImageReturnType) (reqs : List Request)
    (h : getUserImages cfg tokenNet searchNet uuid size token =
      (Outcome.ok r, reqs)) :
    ∃ hits st, searchNet = NetResult.response 200 st (some hits) ∧
      r = ⟨hits.map (mediaFromHitRaw uuid),
        hits.map (fun e => mediaUrlHash e.source.filename)⟩ := by
  unfold getUserImages at h
  rcases hg : getTokenIfNotExist cfg tokenNet token with ⟨o, treqs⟩
  rw [hg] at h
  cases o with
  | exn m => simp at h
  | ok tk =>
    cases searchNet with
    | throws m => simp at h
    | response s st data =>
      cases data with
      | none => simp at h
      | some hits =>
        by_cases hs : (s == 200) = true
        · have hs2 : s = 200 := by simpa using hs
          subst hs2
          dsimp only at h
          rw [if_pos (by decide)] at h
          simp only [Prod.mk.injEq, Outcome.ok.injEq] at h
          exact ⟨hits, st, rfl, h.1.symm⟩
        · simp [hs] at h

/-- C7: `getImagesByFilenames` with an empty filename list returns the
empty result without acquiring a token and without issuing any network
request; when the list is non-empty and the search succeeds, every
returned record has its owner field unset and its metadata stripped to
exactly the `{width, height, format}` projection of the hit's raw
metadata. -/
theorem C7_getImagesByFilenames_contract (cfg : SirvConfig)
    (tokenNet : NetResult String) (searchNet : NetResult (Option (List SearchHit)))
    (fileList : List String) (token : Option String) :
    (getImagesByFilenames cfg tokenNet searchNet [] token =
      (Outcome.ok ⟨[], []⟩, [])) ∧
    (∀ r reqs, getImagesByFilenames cfg tokenNet searchNet fileList token =
        (Outcome.ok r, reqs) →
      ∀ m ∈ r.mediaList, m.ownerId = "" ∧ ∃ raw : RawMeta, m.meta = stripMeta raw) ∧
    (∀ hits st r reqs, searchNet = NetResult.response 200 st (some hits) →
      getImagesByFilenames cfg tokenNet searchNet fileList token =
        (Outcome.ok r, reqs) →
      fileList ≠ [] →
      r.mediaList = hits.map mediaFromHitStripped ∧
      ∀ m ∈ r.mediaList, m.ownerId = "" ∧
        ∃ e ∈ hits, m.meta = stripMeta e.source.meta) := by
  refine ⟨rfl, ?_, ?_⟩
  · intro r reqs hrun m hm
    rcases getImagesByFilenames_ok cfg tokenNet searchNet fileList token r reqs hrun with
      ⟨_, hre, _⟩ | ⟨_, hits, st, hsn, hre⟩
    · subst hre
      simp at hm
    · subst hre
      obtain ⟨e, he, hme⟩ := List.mem_map.mp (by simpa using hm)
      exact ⟨by rw [← hme]; rfl, e.source.meta, by rw [← hme]; rfl⟩
  · intro hits st r reqs hsn hrun hne
    rcases getImagesByFilenames_ok cfg tokenNet searchNet fileList token r reqs hrun with
      ⟨hfe, _, _⟩ | ⟨_, hits', st', hsn', hre⟩
    · exact absurd hfe hne
    · rw [hsn] at hsn'
      injection hsn' with e1 e2 e3
      injection e3 with e3
      subst e2
      subst e3
      subst hre
      refine ⟨rfl, ?_⟩
      intro m hm
      obtain ⟨e, he, hme⟩ := List.mem_map.mp (by simpa using hm)
      exact ⟨by rw [← hme]; rfl, e, he, by rw [← hme]; rfl⟩

theorem C7_witness :
    getImagesByFilenames cfgFull (NetResult.response 200 "OK" "tk")
      (NetResult.response 200 "OK" (some [hitA])) [] (some "tk") =
      (Outcome.ok ⟨[], []⟩, []) ∧
    ((⟨[mediaFromHitStripped hitA], [mediaUrlHash "a.jpg"]⟩ :
        ImagesByFilenamesReturn).mediaList = [hitA].map mediaFromHitStripped ∧
      ∀ m ∈ (⟨[mediaFromHitStripped hitA], [mediaUrlHash "a.jpg"]⟩ :
        ImagesByFilenamesReturn).mediaList,
        m.ownerId = "" ∧ ∃ e ∈ [hitA], m.meta = stripMeta e.source.meta) :=
  ⟨(C7_getImagesByFilenames_contract cfgFull (NetResult.response 200 "OK" "tk")
      (NetResult.response 200 "OK" (some [hitA])) ["photos/a.jpg"] (some "tk")).1,
    (C7_getImagesByFilenames_contract cfgFull (NetResult.response 200 "OK" "tk")
      (NetResult.response 200 "OK" (some [hitA])) ["photos/a.jpg"] (some "tk")).2.2
      [hitA] "OK" ⟨[mediaFromHitStripped hitA], [mediaUrlHash "a.jpg"]⟩
      [Request.searchReq "(filename:a.jpg) AND -dirname:\\/.Trash" 50]
      rfl rfl (by decide)⟩

/-- C8: the media id derivation is a pure deterministic function of the
filename string (uuid v5 of the URL under the URL namespace — no
randomness, no state), and every mediaId inside a Media Client result
equals `mediaUrlHash` of that record's filename. -/
theorem C8_mediaId_pure (s t : String) (cfg : SirvConfig)
    (tokenNet : NetResult String) (searchNet : NetResult (Option (List SearchHit)))
    (uuid : String) (size : Nat) (token : Option String) (fileList : List String) :
    (s = t → mediaUrlHash s = mediaUrlHash t) ∧
    (∀ r reqs, getUserImages cfg tokenNet searchNet uuid size token =
        (Outcome.ok r, reqs) →
      r.mediaIdList = r.mediaList.map MediaType.mediaId ∧
      ∀ m ∈ r.mediaList, m.mediaId = mediaUrlHash m.filename) ∧
    (∀ r reqs, getImagesByFilenames cfg tokenNet searchNet fileList token =
        (Outcome.ok r, reqs) →
      r.idList = r.mediaList.map MediaType.mediaId ∧
      ∀ m ∈ r.mediaList, m.mediaId = mediaUrlHash m.filename) := by
  refine ⟨fun h => by rw [h], ?_, ?_⟩
  · intro r reqs hrun
    obtain ⟨hits, st, hsn, hre⟩ :=
      getUserImages_ok cfg tokenNet searchNet uuid size token r reqs hrun
    subst hre
    refine ⟨?_, ?_⟩
    · show hits.map (fun e => mediaUrlHash e.source.filename) =
        (hits.map (mediaFromHitRaw uuid)).map MediaType.mediaId
      rw [List.map_map]
      rfl
    · intro m hm
      obtain ⟨e, he, hme⟩ := List.mem_map.mp (by simpa using hm)
      rw [← hme]
      rfl
  · intro r reqs hrun
    rcases getImagesByFilenames_ok cfg tokenNet searchNet fileList token r reqs hrun with
      ⟨_, hre, _⟩ | ⟨_, hits, st, hsn, hre⟩
    · subst hre
      exact ⟨rfl, by intro m hm; simp at hm⟩
    · subst hre
      refine ⟨?_, ?_⟩
      · show hits.map (fun e => mediaUrlHash e.source.filename) =
          (hits.map mediaFromHitStripped).map MediaType.mediaId
        rw [List.map_map]
        rfl
      · intro m hm
        obtain ⟨e, he, hme⟩ := List.mem_map.mp (by simpa using hm)
        rw [← hme]
        rfl

theorem C8_witness :
    mediaUrlHash "a.jpg" = mediaUrlHash "a.jpg" ∧
    ((⟨[mediaFromHitRaw "u-1" hitA], [mediaUrlHash "a.jpg"]⟩ :
        UserImageReturnType).mediaIdList =
      (⟨[mediaFromHitRaw "u-1" hitA], [mediaUrlHash "a.jpg"]⟩ :
        UserImageReturnType).mediaList.map MediaType.mediaId ∧
      ∀ m ∈ (⟨[mediaFromHitRaw "u-1" hitA], [mediaUrlHash "a.jpg"]⟩ :
        UserImageReturnType).mediaList, m.mediaId = mediaUrlHash m.filename) :=
  ⟨(C8_mediaId_pure "a.jpg" "a.jpg" cfgFull (NetResult.response 200 "OK" "tk")
      (NetResult.response 200 "OK" (some [hitA])) "u-1" 100 (some "tk") []).1 rfl,
    (C8_mediaId_pure "a.jpg" "a.jpg" cfgFull (NetResult.response 200 "OK" "tk")
      (NetResult.response 200 "OK" (some [hitA])) "u-1" 100 (some "tk") []).2.1
      ⟨[mediaFromHitRaw "u-1" hitA], [mediaUrlHash "a.jpg"]⟩
      [Request.searchReq
        ("(extension:.jpg OR extension:.jpeg OR extension:.png) AND dirname:\\/u\\/u-1 AND -dirname:\\/.Trash AND -filename:uid.json")
        100]
      rfl⟩

theorem getImagesByFilenames_reqs (cfg : SirvConfig) (tokenNet : NetResult String)
    (searchNet : NetResult (Option (List SearchHit))) (fileList : List String)
    (token : Option String) (hne : ¬ (fileList.length == 0) = true) :
    ((∃ m, (getTokenIfNotExist cfg tokenNet token).1 = Outcome.exn m) ∧
      (getImagesByFilenames cfg tokenNet searchNet fileList token).2 =
        (getTokenIfNotExist cfg tokenNet token).2) ∨
    ((∃ t, (getTokenIfNotExist cfg tokenNet token).1 = Outcome.ok t) ∧
      (getImagesByFilenames cfg tokenNet searchNet fileList token).2 =
        (getTokenIfNotExist cfg tokenNet token).2 ++
          [Request.searchReq ("(" ++ String.intercalate " OR "
            (fileList.map filenameClause) ++ ") AND -dirname:\\/.Trash") 50]) := by
  unfold getImagesByFilenames
  rw [if_neg hne]
  rcases hg : getTokenIfNotExist cfg tokenNet token with ⟨o, treqs⟩
  cases o with
  | exn m => exact Or.inl ⟨⟨m, rfl⟩, rfl⟩
  | ok tk =>
    cases searchNet with
    | throws m => exact Or.inr ⟨⟨tk, rfl⟩, rfl⟩
    | response s st data =>
      cases data with
      | none => exact Or.inr ⟨⟨tk, rfl⟩, rfl⟩
      | some hits =>
        by_cases hs : (s == 200) = true
        · refine Or.inr ⟨⟨tk, rfl⟩, ?_⟩
          dsimp only
          rw [if_pos hs]
        · refine Or.inr ⟨⟨tk, rfl⟩, ?_⟩
          dsimp only
          rw [if_neg hs]

/-- C9: every search request issued by `getImagesByFilenames` carries
the fixed result-size limit 50, regardless of how many filenames were
supplied; with a caller-supplied token and a non-empty list the request
trace is exactly one search request of size 50. -/
theorem C9_search_size_fixed_50 (cfg : SirvConfig) (tokenNet : NetResult String)
    (searchNet : NetResult (Option (List SearchHit))) (fileList : List String)
    (token : Option String) :
    (∀ q sz, Request.searchReq q sz ∈
        (getImagesByFilenames cfg tokenNet searchNet fileList token).2 → sz = 50) ∧
    (∀ t, token = some t → fileList ≠ [] →
      (getImagesByFilenames cfg tokenNet searchNet fileList token).2 =
        [Request.searchReq ("(" ++ String.intercalate " OR "
          (fileList.map filenameClause) ++ ") AND -dirname:\\/.Trash") 50]) := by
  constructor
  · intro q sz hmem
    by_cases hf : (fileList.length == 0) = true
    · have hfe : fileList = [] := by simpa using hf
      subst hfe
      rw [show (getImagesByFilenames cfg tokenNet searchNet [] token).2 = []
        from rfl] at hmem
      simp at hmem
    · have htr := getTokenIfNotExist_reqs cfg tokenNet token
      have hnotin : Request.searchReq q sz ∉ (getTokenIfNotExist cfg tokenNet token).2 := by
        rcases htr with h' | h' <;> rw [h'] <;> simp
      rcases getImagesByFilenames_reqs cfg tokenNet searchNet fileList token hf with
        ⟨_, hre⟩ | ⟨_, hre⟩
      · rw [hre] at hmem
        exact absurd hmem hnotin
      · rw [hre] at hmem
        rcases List.mem_append.mp hmem with h' | h'
        · exact absurd h' hnotin
        · have he := List.mem_singleton.mp h'
          injection he with e1 e2
  · intro t htok hne
    subst htok
    rcases getImagesByFilenames_reqs cfg tokenNet searchNet fileList (some t)
      (by simpa using hne) with ⟨⟨m, hm⟩, _⟩ | ⟨_, hre⟩
    · rw [show (getTokenIfNotExist cfg tokenNet (some t)).1 = Outcome.ok t
        from rfl] at hm
      exact absurd hm (by simp)
    · rw [hre]
      rw [show (getTokenIfNotExist cfg tokenNet (some t)).2 = [] from rfl]
      rfl

theorem C9_witness :
    ((["photos/a.jpg", "b.png"] : List String) ≠ []) ∧
    (getImagesByFilenames cfgFull (NetResult.response 200 "OK" "tk")
      (NetResult.response 200 "OK" (some [hitA])) ["photos/a.jpg", "b.png"]
      (some "tk")).2 =
      [Request.searchReq ("(" ++ String.intercalate " OR "
        ((["photos/a.jpg", "b.png"] : List String).map filenameClause) ++
        ") AND -dirname:\\/.Trash") 50] :=
  ⟨by decide,
    (C9_search_size_fixed_50 cfgFull (NetResult.response 200 "OK" "tk")
      (NetResult.response 200 "OK" (some [hitA])) ["photos/a.jpg", "b.png"]
      (some "tk")).2 "tk" rfl (by decide)⟩

/-- C10: `addUserIdFile` with an absent (null) owner id returns `false`
immediately, acquiring no token and issuing no network request;
otherwise every upload request it issues carries the marker body with
the owner id lowercased and the `Date.now()` timestamp. -/
theorem C10_addUserIdFile_contract (cfg : SirvConfig) (tokenNet : NetResult String)
    (upNet : NetResult Unit) (now : Nat) (filename : String)
    (token : Option String) :
    (addUserIdFile cfg tokenNet upNet now filename none token =
      (Outcome.ok false, [])) ∧
    (∀ u f ct b, Request.uploadReq f ct b ∈
        (addUserIdFile cfg tokenNet upNet now filename (some u) token).2 →
      f = filename ∧ ct = "application/json" ∧
      b = UploadBody.uidJson (jsToLowerCase u) now) := by
  refine ⟨rfl, ?_⟩
  intro u f ct b hmem
  have htr := getAdminTokenIfNotExist_reqs cfg tokenNet token
  unfold addUserIdFile at hmem
  rcases hg : getAdminTokenIfNotExist cfg tokenNet token with ⟨o, treqs⟩
  rw [hg] at hmem htr
  have hnotin : Request.uploadReq f ct b ∉ treqs := by
    rcases htr with h' | h' <;> simp only at h' <;> rw [h'] <;> simp
  cases o with
  | exn m =>
    dsimp only at hmem
    exact absurd hmem hnotin
  | ok tk =>
    cases upNet with
    | throws m =>
      dsimp only at hmem
      rcases List.mem_append.mp hmem with h' | h'
      · exact absurd h' hnotin
      · have := List.mem_singleton.mp h'
        injection this with e1 e2 e3
        exact ⟨e1, e2, e3⟩
    | response s st d =>
      dsimp only at hmem
      by_cases hs : (200 ≤ s && s ≤ 204) = true
      · rw [if_pos hs] at hmem
        rcases List.mem_append.mp hmem with h' | h'
        · exact absurd h' hnotin
        · have := List.mem_singleton.mp h'
          injection this with e1 e2 e3
          exact ⟨e1, e2, e3⟩
      · rw [if_neg hs] at hmem
        rcases List.mem_append.mp hmem with h' | h'
        · exact absurd h' hnotin
        · have := List.mem_singleton.mp h'
          injection this with e1 e2 e3
          exact ⟨e1, e2, e3⟩

theorem C10_witness :
    addUserIdFile cfgFull (NetResult.response 200 "OK" "tk")
      (NetResult.response 200 "OK" ()) 1700000000000 "/u/u-1/uid.json" none none =
      (Outcome.ok false, []) ∧
    Request.uploadReq "/u/u-1/uid.json" "application/json"
      (UploadBody.uidJson "alice" 1700000000000) ∈
      (addUserIdFile cfgFull (NetResult.response 200 "OK" "tk")
        (NetResult.response 200 "OK" ()) 1700000000000 "/u/u-1/uid.json"
        (some "Alice") none).2 ∧
    UploadBody.uidJson "alice" 1700000000000 =
      UploadBody.uidJson (jsToLowerCase "Alice") 1700000000000 :=
  ⟨(C10_addUserIdFile_contract cfgFull (NetResult.response 200 "OK" "tk")
      (NetResult.response 200 "OK" ()) 1700000000000 "/u/u-1/uid.json" none).1,
    by decide,
    ((C10_addUserIdFile_contract cfgFull (NetResult.response 200 "OK" "tk")
      (NetResult.response 200 "OK" ()) 1700000000000 "/u/u-1/uid.json" none).2
      "Alice" "/u/u-1/uid.json" "application/json"
      (UploadBody.uidJson "alice" 1700000000000) (by decide)).2.2⟩
